import Mathlib

/-!
Shallow embedding of the `scope` Go package (scope.go): the sequential and
parallel work runners, the cancellation wrappers, and the Sequence / All /
Any orchestrator families, together with theorems about their execution
order, error aggregation, fault containment, and cleanup behaviour.

Modelling conventions:
* `Ctx` models `context.Context`: the caller's context plus the three
  derived forms the package builds (`WithCancel`, `WithTimeout`,
  `WithDeadline`).  Durations are `Nat`, absolute deadlines `Int`.
* A Go `error` value produced by a work item is modelled by `ItemErr`;
  the value a runner returns is modelled by `GoErr`.
* A work item (`Work[T]`) is a function from the context and the current
  state to the updated state together with an `Outcome`: normal success,
  a returned error, or a panic carrying a value.
* Runners return failures as values (`Option GoErr`); a Go panic inside
  the runner is modelled by the corresponding `defer`/`recover` handler's
  result, so no Lean-side partiality is needed.
* The parallel runner launches one goroutine per item and -- in the source
  -- reads the shared `errs` slice without any synchronisation.  The model
  therefore takes an observation predicate `done : Nat → Bool` saying which
  goroutines have already written their slot at the moment the main thread
  scans the slice; `fun _ => true` is the fully-joined schedule.
-/

namespace Scope

/-- Go `context.Context`: the root plus the three derived constructors the
package uses. -/
inductive Ctx where
  | root
  | cancelCtx (parent : Ctx)
  | timeoutCtx (parent : Ctx) (d : Nat)
  | deadlineCtx (parent : Ctx) (t : Int)
deriving DecidableEq

/-- Result of invoking one work item: success, a returned Go error with the
given message, or a panic with the given value (rendered as a string, as
`fmt.Errorf("scope recovered: %v", r)` would render it). -/
inductive Outcome where
  | ok
  | err (msg : String)
  | panic (v : String)
deriving DecidableEq

/-- A Go error value attributable to a single work item: either the error
the item returned, or the error the per-item `recover` handler built from a
panic (`fmt.Errorf("scope recovered: %v", r)`). -/
inductive ItemErr where
  | fail (msg : String)
  | recovered (v : String)
deriving DecidableEq

/-- A Go error value as returned by a runner: a single item's error passed
through unchanged, an error built by a batch-boundary `recover` handler, or
the result of `errors.Join` over a list of item errors. -/
inductive GoErr where
  | item (e : ItemErr)
  | recovered (v : String)
  | joined (es : List ItemErr)
deriving DecidableEq

/-- The `Error()` string of an `ItemErr`. -/
def ItemErr.message : ItemErr → String
  | .fail m => m
  | .recovered v => "scope recovered: " ++ v

/-- The `Error()` string of a `GoErr`; `errors.Join` concatenates the
constituent messages with newlines. -/
def GoErr.message : GoErr → String
  | .item e => e.message
  | .recovered v => "scope recovered: " ++ v
  | .joined es => String.intercalate "\n" (es.map ItemErr.message)

/-- `Work[T]`: a work item receives the context and (a pointer to) the
state, mutates the state, and finishes with an `Outcome`. -/
def Work (T : Type) : Type := Ctx → T → T × Outcome

variable {T : Type}

/-- `sequence` (scope.go lines 25-39): run the items in list order on the
calling thread; return the first item's error unchanged, or, if an item
panics, the error the batch-boundary `recover` handler builds from it;
return `none` if every item succeeds.  The returned state is the state
after the last item that ran. -/
def sequence (ctx : Ctx) : T → List (Work T) → T × Option GoErr
  | s, [] => (s, none)
  | s, w :: ws =>
    match w ctx s with
    | (s1, Outcome.ok) => sequence ctx s1 ws
    | (s1, Outcome.err m) => (s1, some (GoErr.item (ItemErr.fail m)))
    | (s1, Outcome.panic v) => (s1, some (GoErr.recovered v))

/-- Specification-side helper: the state reached by threading the items in
list order when every one of them succeeds (`none` when some item does not
return `Outcome.ok` from the state it is given). -/
def runOk (ctx : Ctx) : T → List (Work T) → Option T
  | s, [] => some s
  | s, w :: ws =>
    match w ctx s with
    | (s1, Outcome.ok) => runOk ctx s1 ws
    | (_, Outcome.err _) => none
    | (_, Outcome.panic _) => none

theorem sequence_all_ok (ctx : Ctx) (s t : T) (ws : List (Work T))
    (h : runOk ctx s ws = some t) : sequence ctx s ws = (t, none) := by
  induction ws generalizing s with
  | nil =>
    simp only [runOk, Option.some.injEq] at h
    simp [sequence, h]
  | cons w ws ih =>
    rcases hw : w ctx s with ⟨s1, o⟩
    cases o with
    | ok =>
      simp only [runOk, hw] at h
      simp only [sequence, hw]
      exact ih s1 h
    | err m => simp [runOk, hw] at h
    | panic v => simp [runOk, hw] at h

theorem sequence_append_of_runOk (ctx : Ctx) (s t : T)
    (ws rest : List (Work T)) (h : runOk ctx s ws = some t) :
    sequence ctx s (ws ++ rest) = sequence ctx t rest := by
  induction ws generalizing s with
  | nil =>
    simp only [runOk, Option.some.injEq] at h
    simp [h]
  | cons w ws ih =>
    rcases hw : w ctx s with ⟨s1, o⟩
    cases o with
    | ok =>
      simp only [runOk, hw] at h
      simp only [List.cons_append, sequence, hw]
      exact ih s1 h
    | err m => simp [runOk, hw] at h
    | panic v => simp [runOk, hw] at h

/-- C5: the sequential runner executes items strictly in list order: if the
first `pre.length` items all succeed, threading the state in order to `t`,
then (1) running exactly those items yields state `t` and no failure;
(2) if the next item returns an error from `t`, the whole run returns that
item's post-state and exactly that error, and the items in `rest` — an
arbitrary continuation — never influence the result, i.e. they do not run;
(3) likewise when the next item panics, with the recovered fault converted
into a failure value. -/
theorem sequence_first_failure_spec (ctx : Ctx) (s t : T)
    (pre rest : List (Work T)) (w : Work T) :
    (runOk ctx s pre = some t → sequence ctx s pre = (t, none))
    ∧ (∀ t1 m, runOk ctx s pre = some t → w ctx t = (t1, Outcome.err m) →
        sequence ctx s (pre ++ w :: rest)
          = (t1, some (GoErr.item (ItemErr.fail m))))
    ∧ (∀ t1 v, runOk ctx s pre = some t → w ctx t = (t1, Outcome.panic v) →
        sequence ctx s (pre ++ w :: rest)
          = (t1, some (GoErr.recovered v))) := by
  refine ⟨fun h => sequence_all_ok ctx s t pre h, ?_, ?_⟩
  · intro t1 m h hw
    rw [sequence_append_of_runOk ctx s t pre (w :: rest) h]
    simp [sequence, hw]
  · intro t1 v h hw
    rw [sequence_append_of_runOk ctx s t pre (w :: rest) h]
    simp [sequence, hw]

/-- A work item on `Nat` state that increments the counter and succeeds. -/
def wInc : Work Nat := fun _ s => (s + 1, Outcome.ok)

/-- A work item that multiplies the counter by 10 and returns an error. -/
def wErrBoom : Work Nat := fun _ s => (s * 10, Outcome.err "boom")

/-- A work item that panics. -/
def wPanicBoom : Work Nat := fun _ s => (s, Outcome.panic "boom")

/-- A work item that succeeds without touching the state. -/
def wOk : Work Nat := fun _ s => (s, Outcome.ok)

/-- Witness for `sequence_first_failure_spec` at concrete inputs: the
prefix `[wInc]` succeeds reaching state 1; an erroring (resp. panicking)
item then stops the run with its own failure, the trailing `[wInc]` never
running. -/
theorem sequence_first_failure_spec_witness :
    sequence Ctx.root (0 : Nat) [wInc] = (1, none)
    ∧ sequence Ctx.root (0 : Nat) [wInc, wErrBoom, wInc]
        = (10, some (GoErr.item (ItemErr.fail "boom")))
    ∧ sequence Ctx.root (0 : Nat) [wInc, wPanicBoom, wInc]
        = (1, some (GoErr.recovered "boom")) := by
  refine ⟨(sequence_first_failure_spec Ctx.root 0 1 [wInc] [wInc] wErrBoom).1 rfl,
    (sequence_first_failure_spec Ctx.root 0 1 [wInc] [wInc] wErrBoom).2.1 10 "boom" rfl rfl,
    (sequence_first_failure_spec Ctx.root 0 1 [wInc] [wInc] wPanicBoom).2.2 1 "boom" rfl rfl⟩

/-- One goroutine body of `parallel` (scope.go lines 54-64): run the item
with the shared context and state; its slot in `errs` becomes the error it
returned, or the error the per-item `recover` handler builds from its
panic, or stays nil on success. -/
def runItem (ctx : Ctx) (s : T) (w : Work T) : Option ItemErr :=
  match (w ctx s).2 with
  | Outcome.ok => none
  | Outcome.err m => some (ItemErr.fail m)
  | Outcome.panic v => some (ItemErr.recovered v)

/-- The eventual contents of the `errs` slice: one slot per work item, in
input order, once every goroutine has finished.  (State interleavings among
concurrently running items are outside the model; each item is applied to
the state as passed in, which is what every goroutine receives.) -/
def runSlots (ctx : Ctx) (s : T) (ws : List (Work T)) : List (Option ItemErr) :=
  ws.map (runItem ctx s)

/-- The `errs` slice as the main thread observes it at scan time.  The
source launches the goroutines and scans `errs` with no synchronisation,
so a slot written by a goroutine that has not yet run is still nil:
`done i = true` means goroutine `i` finished before the scan. -/
def observe (done : Nat → Bool) (slots : List (Option ItemErr)) :
    List (Option ItemErr) :=
  slots.enum.map (fun p => if done p.1 then p.2 else none)

/-- The loop index side of scope.go lines 68-72: the indices `i` (counting
from `start`) whose slot is nil, in increasing order. -/
def nilIndicesFrom : Nat → List (Option ItemErr) → List Nat
  | _, [] => []
  | i, none :: es => i :: nilIndicesFrom (i + 1) es
  | i, some _ :: es => nilIndicesFrom (i + 1) es

/-- One step of the compaction loop (scope.go line 78),
`errs = append(errs[:i], errs[i+1:]...)`: deleting index `i` panics with a
slice-bounds fault when `i + 1` exceeds the slice length, since
`errs[i+1:]` then has its low bound above its high bound. -/
def delete1 (es : List α) (i : Nat) : Option (List α) :=
  if i + 1 ≤ es.length then some (es.take i ++ es.drop (i + 1)) else none

/-- The compaction loop of scope.go lines 77-79, deleting the given indices
in order; `none` when some deletion panics. -/
def deleteLoop : List α → List Nat → Option (List α)
  | es, [] => some es
  | es, i :: is =>
    match delete1 es i with
    | some es1 => deleteLoop es1 is
    | none => none

/-- `errors.Join` over the compacted slice: nil errors are dropped; the
result is nil when no non-nil error remains. -/
def errorsJoin (es : List (Option ItemErr)) : Option GoErr :=
  let nonNil := es.filterMap id
  if nonNil.isEmpty then none else some (GoErr.joined nonNil)

/-- The `%v` rendering of the panic raised by `errs[1:]` on a slice of
length 0 in the compaction loop. -/
def sliceOOB : String := "runtime error: slice bounds out of range [1:0]"

/-- The `nilIdx` list of scope.go lines 67-74: `make([]int, 4)` yields a
slice of length 4 holding four zeros; the indices of the nil slots are
appended to it and the whole list is reversed. -/
def scanIdx (errs : List (Option ItemErr)) : List Nat :=
  ([0, 0, 0, 0] ++ nilIndicesFrom 0 errs).reverse

/-- scope.go lines 67-81, operating on the scanned `errs` slice: `success`
is the length of the (reversed) `nilIdx` list; then every listed index is
deleted from `errs` in order and the remainder is joined.  A panic in the
deletion loop is caught by the function-level `recover` (lines 46-50),
which replaces the error while keeping the already-assigned named return
`success`. -/
def parallelScan (errs : List (Option ItemErr)) : Nat × Option GoErr :=
  match deleteLoop errs (scanIdx errs) with
  | some es => ((scanIdx errs).length, errorsJoin es)
  | none => ((scanIdx errs).length, some (GoErr.recovered sliceOOB))

/-- `parallel` (scope.go lines 45-82): launch one goroutine per item, then
immediately scan the shared `errs` slice (there is no join construct in the
source), so the scanned contents depend on which goroutines finished first,
expressed by `done`. -/
def parallel (ctx : Ctx) (s : T) (ws : List (Work T)) (done : Nat → Bool) :
    Nat × Option GoErr :=
  parallelScan (observe done (runSlots ctx s ws))

theorem nilIndicesFrom_length (es : List (Option ItemErr)) (i : Nat) :
    (nilIndicesFrom i es).length = es.countP (fun e => e = none) := by
  induction es generalizing i with
  | nil => simp [nilIndicesFrom]
  | cons e es ih =>
    cases e with
    | none => simp [nilIndicesFrom, List.countP_cons, ih]
    | some x => simp [nilIndicesFrom, List.countP_cons, ih]

theorem parallelScan_fst (errs : List (Option ItemErr)) :
    (parallelScan errs).1 = 4 + errs.countP (fun e => e = none) := by
  simp only [parallelScan]
  split <;> simp [scanIdx, nilIndicesFrom_length, Nat.add_comm]

theorem nilIndicesFrom_shift (es : List (Option ItemErr)) (i : Nat) :
    nilIndicesFrom (i + 1) es = (nilIndicesFrom i es).map (· + 1) := by
  induction es generalizing i with
  | nil => simp [nilIndicesFrom]
  | cons e es ih =>
    cases e with
    | none => simp [nilIndicesFrom, ih]
    | some x => simp [nilIndicesFrom, ih]

theorem delete1_cons_succ (x : α) (xs : List α) (i : Nat) :
    delete1 (x :: xs) (i + 1) = (delete1 xs i).map (fun l => x :: l) := by
  by_cases h : i + 1 ≤ xs.length
  · simp [delete1, h, Nat.succ_le_succ h, List.take_succ_cons, List.drop_succ_cons]
  · have h2 : ¬ i + 1 + 1 ≤ (x :: xs).length := by
      simp only [List.length_cons]
      omega
    simp [delete1, h, h2]

theorem deleteLoop_map_succ (x : α) (xs : List α) (is : List Nat) :
    deleteLoop (x :: xs) (is.map (· + 1))
      = (deleteLoop xs is).map (fun l => x :: l) := by
  induction is generalizing xs with
  | nil => simp [deleteLoop]
  | cons i is ih =>
    simp only [List.map_cons, deleteLoop, delete1_cons_succ]
    rcases h : delete1 xs i with _ | xs1
    · simp [h]
    · simp [h, ih]

theorem deleteLoop_append (es : List α) (is1 is2 : List Nat) :
    deleteLoop es (is1 ++ is2)
      = (deleteLoop es is1).bind (fun es1 => deleteLoop es1 is2) := by
  induction is1 generalizing es with
  | nil => simp [deleteLoop]
  | cons i is ih =>
    simp only [List.cons_append, deleteLoop]
    rcases h : delete1 es i with _ | es1
    · simp
    · simp [ih]

/-- Deleting the nil slots' indices in decreasing order succeeds and leaves
exactly the non-nil slots, in their original order. -/
theorem deleteLoop_nilIndices (es : List (Option ItemErr)) :
    deleteLoop es ((nilIndicesFrom 0 es).reverse)
      = some (es.filter (fun e => e ≠ none)) := by
  induction es with
  | nil => simp [nilIndicesFrom, deleteLoop]
  | cons e es ih =>
    cases e with
    | none =>
      simp only [nilIndicesFrom, nilIndicesFrom_shift, List.reverse_cons]
      rw [← List.map_reverse, deleteLoop_append, deleteLoop_map_succ, ih]
      simp [deleteLoop, delete1]
    | some x =>
      simp only [nilIndicesFrom, nilIndicesFrom_shift]
      rw [← List.map_reverse, deleteLoop_map_succ, ih]
      simp [List.filter]

theorem deleteLoop_four_zeros_of_short (es : List α) (h : es.length < 4) :
    deleteLoop es [0, 0, 0, 0] = none := by
  match es, h with
  | [], _ => simp [deleteLoop, delete1]
  | [a], _ => simp [deleteLoop, delete1]
  | [a, b], _ => simp [deleteLoop, delete1]
  | [a, b, c], _ => simp [deleteLoop, delete1]

theorem countP_filter_ne_none (es : List (Option ItemErr)) :
    (es.filter (fun e => e ≠ none)).length
      = es.countP (fun e => e ≠ none) := by
  simp [List.countP_eq_length_filter]

/-- When fewer than four slots are non-nil, the compaction loop's trailing
four zero-index deletions run out of elements and panic; the recover
handler substitutes the slice-bounds error while `success` keeps the value
assigned before the loop. -/
theorem parallelScan_short (errs : List (Option ItemErr))
    (h : errs.countP (fun e => e ≠ none) < 4) :
    parallelScan errs
      = (4 + errs.countP (fun e => e = none),
         some (GoErr.recovered sliceOOB)) := by
  have hnone : deleteLoop errs (scanIdx errs) = none := by
    have h4 : ([0, 0, 0, 0] : List Nat).reverse = [0, 0, 0, 0] := rfl
    rw [scanIdx, List.reverse_append, h4, deleteLoop_append,
      deleteLoop_nilIndices]
    exact deleteLoop_four_zeros_of_short _
      (by rw [countP_filter_ne_none]; exact h)
  have hlen : (scanIdx errs).length = 4 + errs.countP (fun e => e = none) := by
    simp [scanIdx, nilIndicesFrom_length, Nat.add_comm]
  simp only [parallelScan, hnone, hlen]

/-- Observable effects of one orchestrator call: an invocation of the
error checker with the error value it receives, or an invocation of the
cleanup hook with the context and state it receives, in program order. -/
inductive Event (T : Type) where
  | check (e : Option GoErr)
  | clean (ctx : Ctx) (s : T)
deriving DecidableEq

def isCheckEv : Event T → Bool
  | Event.check _ => true
  | Event.clean _ _ => false

def isCleanEv : Event T → Bool
  | Event.check _ => false
  | Event.clean _ _ => true

/-- `Sequence` (scope.go lines 87-95): run the batch sequentially; pass a
non-nil error to the checker; then, when a cleanup hook was supplied
(`hc`), invoke it on the post-batch state. -/
def Sequence (ctx : Ctx) (s : T) (hc : Bool) (ws : List (Work T)) :
    List (Event T) :=
  (match (sequence ctx s ws).2 with
    | some e => [Event.check (some e)]
    | none => [])
  ++ (if hc then [Event.clean ctx (sequence ctx s ws).1] else [])

/-- `SequenceWithCancel` (scope.go lines 102-113): as `Sequence`, over a
child context with a cancel control. -/
def SequenceWithCancel (ctx : Ctx) (s : T) (hc : Bool) (ws : List (Work T)) :
    List (Event T) :=
  (match (sequence (Ctx.cancelCtx ctx) s ws).2 with
    | some e => [Event.check (some e)]
    | none => [])
  ++ (if hc then
        [Event.clean (Ctx.cancelCtx ctx) (sequence (Ctx.cancelCtx ctx) s ws).1]
      else [])

/-- `SequenceWithTimeout` (scope.go lines 120-131). -/
def SequenceWithTimeout (ctx : Ctx) (s : T) (d : Nat) (hc : Bool)
    (ws : List (Work T)) : List (Event T) :=
  (match (sequence (Ctx.timeoutCtx ctx d) s ws).2 with
    | some e => [Event.check (some e)]
    | none => [])
  ++ (if hc then
        [Event.clean (Ctx.timeoutCtx ctx d)
          (sequence (Ctx.timeoutCtx ctx d) s ws).1]
      else [])

/-- `SequenceWithDeadline` (scope.go lines 138-149). -/
def SequenceWithDeadline (ctx : Ctx) (s : T) (t : Int) (hc : Bool)
    (ws : List (Work T)) : List (Event T) :=
  (match (sequence (Ctx.deadlineCtx ctx t) s ws).2 with
    | some e => [Event.check (some e)]
    | none => [])
  ++ (if hc then
        [Event.clean (Ctx.deadlineCtx ctx t)
          (sequence (Ctx.deadlineCtx ctx t) s ws).1]
      else [])

/-- `All` (scope.go lines 156-164): run the batch in parallel, discard the
success count, pass a non-nil error to the checker, then run cleanup.
Cleanup receives the shared state reference (concurrent mutations by the
items are outside the model). -/
def All (ctx : Ctx) (s : T) (hc : Bool) (ws : List (Work T))
    (done : Nat → Bool) : List (Event T) :=
  (match (parallel ctx s ws done).2 with
    | some e => [Event.check (some e)]
    | none => [])
  ++ (if hc then [Event.clean ctx s] else [])

/-- `AllWithCancel` (scope.go lines 171-182). -/
def AllWithCancel (ctx : Ctx) (s : T) (hc : Bool) (ws : List (Work T))
    (done : Nat → Bool) : List (Event T) :=
  (match (parallel (Ctx.cancelCtx ctx) s ws done).2 with
    | some e => [Event.check (some e)]
    | none => [])
  ++ (if hc then [Event.clean (Ctx.cancelCtx ctx) s] else [])

/-- `AllWithTimeout` (scope.go lines 189-200). -/
def AllWithTimeout (ctx : Ctx) (s : T) (d : Nat) (hc : Bool)
    (ws : List (Work T)) (done : Nat → Bool) : List (Event T) :=
  (match (parallel (Ctx.timeoutCtx ctx d) s ws done).2 with
    | some e => [Event.check (some e)]
    | none => [])
  ++ (if hc then [Event.clean (Ctx.timeoutCtx ctx d) s] else [])

/-- `AllWithDeadline` (scope.go lines 207-218). -/
def AllWithDeadline (ctx : Ctx) (s : T) (t : Int) (hc : Bool)
    (ws : List (Work T)) (done : Nat → Bool) : List (Event T) :=
  (match (parallel (Ctx.deadlineCtx ctx t) s ws done).2 with
    | some e => [Event.check (some e)]
    | none => [])
  ++ (if hc then [Event.clean (Ctx.deadlineCtx ctx t) s] else [])

/-- `Any` (scope.go lines 225-234): run the batch in parallel; invoke the
checker with the returned error exactly when the success count is zero
(even if that error is nil); then run cleanup. -/
def Any (ctx : Ctx) (s : T) (hc : Bool) (ws : List (Work T))
    (done : Nat → Bool) : List (Event T) :=
  (if (parallel ctx s ws done).1 = 0 then
      [Event.check (parallel ctx s ws done).2]
    else [])
  ++ (if hc then [Event.clean ctx s] else [])

/-- `AnyWithCancel` (scope.go lines 241-253). -/
def AnyWithCancel (ctx : Ctx) (s : T) (hc : Bool) (ws : List (Work T))
    (done : Nat → Bool) : List (Event T) :=
  (if (parallel (Ctx.cancelCtx ctx) s ws done).1 = 0 then
      [Event.check (parallel (Ctx.cancelCtx ctx) s ws done).2]
    else [])
  ++ (if hc then [Event.clean (Ctx.cancelCtx ctx) s] else [])

/-- `AnyWithTimeout` (scope.go lines 260-272). -/
def AnyWithTimeout (ctx : Ctx) (s : T) (d : Nat) (hc : Bool)
    (ws : List (Work T)) (done : Nat → Bool) : List (Event T) :=
  (if (parallel (Ctx.timeoutCtx ctx d) s ws done).1 = 0 then
      [Event.check (parallel (Ctx.timeoutCtx ctx d) s ws done).2]
    else [])
  ++ (if hc then [Event.clean (Ctx.timeoutCtx ctx d) s] else [])

/-- `AnyWithDeadline` (scope.go lines 279-291). -/
def AnyWithDeadline (ctx : Ctx) (s : T) (t : Int) (hc : Bool)
    (ws : List (Work T)) (done : Nat → Bool) : List (Event T) :=
  (if (parallel (Ctx.deadlineCtx ctx t) s ws done).1 = 0 then
      [Event.check (parallel (Ctx.deadlineCtx ctx t) s ws done).2]
    else [])
  ++ (if hc then [Event.clean (Ctx.deadlineCtx ctx t) s] else [])

/-- The twelve public orchestrators. -/
inductive OrchId where
  | seq
  | seqCancel
  | seqTimeout
  | seqDeadline
  | allP
  | allCancel
  | allTimeout
  | allDeadline
  | anyP
  | anyCancel
  | anyTimeout
  | anyDeadline
deriving DecidableEq

/-- Dispatch one orchestrator call to its definition (`d` and `t` are the
timeout duration and the deadline instant, used by the variants that take
them; `done` is the scan-time observation for the parallel-based ones). -/
def orchEvents (o : OrchId) (ctx : Ctx) (s : T) (d : Nat) (t : Int)
    (hc : Bool) (ws : List (Work T)) (done : Nat → Bool) : List (Event T) :=
  match o with
  | OrchId.seq => Sequence ctx s hc ws
  | OrchId.seqCancel => SequenceWithCancel ctx s hc ws
  | OrchId.seqTimeout => SequenceWithTimeout ctx s d hc ws
  | OrchId.seqDeadline => SequenceWithDeadline ctx s t hc ws
  | OrchId.allP => All ctx s hc ws done
  | OrchId.allCancel => AllWithCancel ctx s hc ws done
  | OrchId.allTimeout => AllWithTimeout ctx s d hc ws done
  | OrchId.allDeadline => AllWithDeadline ctx s t hc ws done
  | OrchId.anyP => Any ctx s hc ws done
  | OrchId.anyCancel => AnyWithCancel ctx s hc ws done
  | OrchId.anyTimeout => AnyWithTimeout ctx s d hc ws done
  | OrchId.anyDeadline => AnyWithDeadline ctx s t hc ws done

/-- A work item that returns the error with the given message, leaving the
state untouched. -/
def wFail (m : String) : Work Nat := fun _ s => (s, Outcome.err m)

/-- C7: in every one of the twelve orchestrators, the event trace consists
of the checker invocations followed by the cleanup invocations; the cleanup
hook runs exactly once when supplied (and never otherwise), after the
error-report step, and the error checker is invoked at most once. -/
theorem cleanup_once_after_report (o : OrchId) (ctx : Ctx) (s : T) (d : Nat)
    (t : Int) (hc : Bool) (ws : List (Work T)) (done : Nat → Bool) :
    orchEvents o ctx s d t hc ws done
        = (orchEvents o ctx s d t hc ws done).filter isCheckEv
          ++ (orchEvents o ctx s d t hc ws done).filter isCleanEv
    ∧ ((orchEvents o ctx s d t hc ws done).filter isCleanEv).length
        = (if hc then 1 else 0)
    ∧ ((orchEvents o ctx s d t hc ws done).filter isCheckEv).length ≤ 1 := by
  cases o <;>
    simp only [orchEvents, Sequence, SequenceWithCancel, SequenceWithTimeout,
      SequenceWithDeadline, All, AllWithCancel, AllWithTimeout,
      AllWithDeadline, Any, AnyWithCancel, AnyWithTimeout, AnyWithDeadline] <;>
    split <;> split <;> simp [isCheckEv, isCleanEv]

/-- C9: for every parallel-runner call, the returned success count is 4
plus the number of nil slots the scan observes (the `make([]int, 4)` seeds
four zero indices), hence always at least 4; consequently the
`success == 0` test in the four Any orchestrators never fires: none of
them ever invokes the error checker. -/
theorem parallel_success_floor (ctx : Ctx) (s : T) (ws : List (Work T))
    (done : Nat → Bool) (d : Nat) (t : Int) (hc : Bool) :
    (parallel ctx s ws done).1
        = 4 + (observe done (runSlots ctx s ws)).countP (fun e => e = none)
    ∧ 4 ≤ (parallel ctx s ws done).1
    ∧ (Any ctx s hc ws done).countP isCheckEv = 0
    ∧ (AnyWithCancel ctx s hc ws done).countP isCheckEv = 0
    ∧ (AnyWithTimeout ctx s d hc ws done).countP isCheckEv = 0
    ∧ (AnyWithDeadline ctx s t hc ws done).countP isCheckEv = 0 := by
  have h1 : ∀ c : Ctx, (parallel c s ws done).1
      = 4 + (observe done (runSlots c s ws)).countP (fun e => e = none) :=
    fun c => parallelScan_fst _
  have hne : ∀ c : Ctx, ¬ (parallel c s ws done).1 = 0 := by
    intro c
    rw [h1 c]
    omega
  refine ⟨h1 ctx, by rw [h1 ctx]; omega, ?_, ?_, ?_, ?_⟩ <;>
    simp only [Any, AnyWithCancel, AnyWithTimeout, AnyWithDeadline,
      hne, if_false, List.nil_append] <;>
    split <;> simp [isCheckEv]

/-- C10: whenever the scanned `errs` slice holds fewer than four non-nil
failures (in particular on the zero-item batch), the compaction loop's
slice expression `errs[1:]` on an empty slice panics; the runner's own
deferred recover catches it, so the runner returns a single error whose
message begins with "scope recovered:" instead of an aggregate of the item
failures. -/
theorem compaction_panic_replaces_aggregate (ctx : Ctx) (s : T)
    (ws : List (Work T)) (done : Nat → Bool)
    (h : (observe done (runSlots ctx s ws)).countP (fun e => e ≠ none) < 4) :
    parallel ctx s ws done
      = (4 + (observe done (runSlots ctx s ws)).countP (fun e => e = none),
         some (GoErr.recovered sliceOOB))
    ∧ (GoErr.recovered sliceOOB).message = "scope recovered: " ++ sliceOOB :=
  ⟨parallelScan_short _ h, rfl⟩

/-- Witness for `compaction_panic_replaces_aggregate`: a single succeeding
item leaves zero non-nil slots, and the runner indeed returns success 5
with the recovered slice-bounds error. -/
theorem compaction_panic_replaces_aggregate_witness :
    (observe (fun _ => true) (runSlots Ctx.root (0 : Nat) [wOk])).countP
        (fun e => e ≠ none) < 4
    ∧ parallel Ctx.root (0 : Nat) [wOk] (fun _ => true)
        = (4 + (observe (fun _ => true)
              (runSlots Ctx.root (0 : Nat) [wOk])).countP (fun e => e = none),
           some (GoErr.recovered sliceOOB)) :=
  ⟨by decide,
    (compaction_panic_replaces_aggregate Ctx.root 0 [wOk] (fun _ => true)
      (by decide)).1⟩

/-- C6: a runtime fault inside a work item is caught and converted into a
failure value carrying the descriptive "scope recovered: ..." message, in
both runners: in the sequential runner the batch-boundary recover turns a
panic of the item after an all-ok prefix into the returned failure (the
runner returns it as a value; nothing unwinds further), and in the parallel
runner the per-item recover records the converted failure in that item's
slot. -/
theorem faults_become_failures (ctx : Ctx) (s t t1 : T)
    (pre rest : List (Work T)) (w : Work T) (v : String) :
    (runOk ctx s pre = some t → w ctx t = (t1, Outcome.panic v) →
      sequence ctx s (pre ++ w :: rest) = (t1, some (GoErr.recovered v)))
    ∧ ((w ctx s).2 = Outcome.panic v →
      runItem ctx s w = some (ItemErr.recovered v))
    ∧ (GoErr.recovered v).message = "scope recovered: " ++ v
    ∧ (ItemErr.recovered v).message = "scope recovered: " ++ v := by
  refine ⟨?_, ?_, rfl, rfl⟩
  · intro h hw
    rw [sequence_append_of_runOk ctx s t pre (w :: rest) h]
    simp [sequence, hw]
  · intro h
    simp [runItem, h]

/-- Witness for `faults_become_failures`: a panicking item after one
succeeding item yields the recovered failure from `sequence`, and its
parallel slot holds the converted failure. -/
theorem faults_become_failures_witness :
    sequence Ctx.root (0 : Nat) [wInc, wPanicBoom]
        = (1, some (GoErr.recovered "boom"))
    ∧ runItem Ctx.root (0 : Nat) wPanicBoom
        = some (ItemErr.recovered "boom") :=
  ⟨(faults_become_failures Ctx.root 0 1 1 [wInc] [] wPanicBoom "boom").1
      rfl rfl,
    (faults_become_failures Ctx.root 0 0 0 [] [] wPanicBoom "boom").2.1 rfl⟩

/-- C1 fails on the code: with the two-item batch [panicking item,
succeeding item] and every goroutine finished before the scan, `parallel`
returns success count 5 — not N−1 = 1 — and the error `All` hands to the
checker is the runner's own recovered slice-bounds panic, not a failure
derived from the item's fault. -/
theorem parallel_fault_containment_broken :
    parallel Ctx.root (0 : Nat) [wPanicBoom, wOk] (fun _ => true)
        = (5, some (GoErr.recovered sliceOOB))
    ∧ All Ctx.root (0 : Nat) true [wPanicBoom, wOk] (fun _ => true)
        = [Event.check (some (GoErr.recovered sliceOOB)),
           Event.clean Ctx.root 0]
    ∧ (5 : Nat) ≠ 2 - 1 :=
  ⟨rfl, rfl, by decide⟩

/-- C2 fails on the code: a one-item batch whose only item fails has every
item failing, yet `Any` invokes no checker (success is 4, not 0); and a
five-item batch with one success and four failures makes `All` invoke no
checker either — the compaction deletes all four failures and
`errors.Join` of the empty remainder is nil. -/
theorem any_all_reporting_broken :
    Any Ctx.root (0 : Nat) true [wFail "e1"] (fun _ => true)
        = [Event.clean Ctx.root 0]
    ∧ All Ctx.root (0 : Nat) true
        [wOk, wFail "e1", wFail "e2", wFail "e3", wFail "e4"]
        (fun _ => true)
        = [Event.clean Ctx.root 0] :=
  ⟨rfl, rfl⟩

/-- C3 fails on the code: on the empty batch, Sequence and Any invoke only
the cleanup hook, but All invokes the error checker with the recovered
compaction panic before cleanup. -/
theorem empty_batch_all_reports :
    Sequence Ctx.root (0 : Nat) true ([] : List (Work Nat))
        = [Event.clean Ctx.root 0]
    ∧ Any Ctx.root (0 : Nat) true [] (fun _ => true)
        = [Event.clean Ctx.root 0]
    ∧ All Ctx.root (0 : Nat) true [] (fun _ => true)
        = [Event.check (some (GoErr.recovered sliceOOB)),
           Event.clean Ctx.root 0] :=
  ⟨rfl, rfl, rfl⟩

/-- C4 fails on the code, in both directions: a batch with zero failures
returns a non-nil recovered error rather than nil, and a batch with five
failures returns an aggregate containing only the fifth failure, the
compaction loop having deleted the first four non-nil entries. -/
theorem aggregate_broken :
    (parallel Ctx.root (0 : Nat) [wOk] (fun _ => true)).2
        = some (GoErr.recovered sliceOOB)
    ∧ (parallel Ctx.root (0 : Nat)
        [wFail "e1", wFail "e2", wFail "e3", wFail "e4", wFail "e5"]
        (fun _ => true)).2
        = some (GoErr.joined [ItemErr.fail "e5"]) :=
  ⟨rfl, rfl⟩

/-- C8 fails on the code: `parallel` contains no join, so its result
depends on which goroutines happened to finish before the scan.  With one
failing item, the scan that runs before the goroutine has written its slot
counts the item among the successes (success 5); the fully-joined schedule
yields 4; the two schedules return different results. -/
theorem parallel_join_missing :
    (parallel Ctx.root (0 : Nat) [wFail "e1"] (fun _ => false)).1 = 5
    ∧ (parallel Ctx.root (0 : Nat) [wFail "e1"] (fun _ => true)).1 = 4
    ∧ parallel Ctx.root (0 : Nat) [wFail "e1"] (fun _ => false)
        ≠ parallel Ctx.root (0 : Nat) [wFail "e1"] (fun _ => true) :=
  ⟨rfl, rfl, by decide⟩

end Scope
